import Mathlib

/-!
Verification of the DataMatch repository (browser utility that compares two
spreadsheet snapshots by a normalized key and emits SQL scripts).

The development shallowly embeds the core logic of the source:
strings are modeled by Lean strings (character lists), the JavaScript
Map objects by insertion-ordered association lists with last-write-wins
update, and the imperative forEach loops by folds, filterMap and countP.
-/

namespace DataMatch

/-! ## JavaScript string primitives -/

/-- Character-list version of the JavaScript String trim operation:
remove whitespace characters from both ends of the list. -/
def jsTrimList (l : List Char) : List Char :=
  ((l.dropWhile Char.isWhitespace).reverse.dropWhile Char.isWhitespace).reverse

/-- Models the JavaScript expression value.toString().trim() on a string value. -/
def jsTrim (s : String) : String :=
  String.mk (jsTrimList s.data)

/-- Models the JavaScript regular-expression test of one-or-more ASCII digits
anchored at both ends, applied to a whole string given as a character list:
true exactly when the list is nonempty and every character is an ASCII digit. -/
def regexDigits (l : List Char) : Bool :=
  !l.isEmpty && l.all Char.isDigit

/-- Character-list core of the matricula normalizer inlined at
page.tsx:1189-1199, page.tsx:1209-1219 and page.tsx:1467-1479:
trim the raw value; if the trimmed value consists only of ASCII digits and
has fewer than 6 characters, put zero characters in front until length 6;
otherwise return the trimmed value unchanged. -/
def normalizeChars (l : List Char) : List Char :=
  if regexDigits (jsTrimList l) then
    if (jsTrimList l).length < 6 then
      List.replicate (6 - (jsTrimList l).length) '0' ++ jsTrimList l
    else jsTrimList l
  else jsTrimList l

/-- The key normalizer on strings (see normalizeChars). -/
def normalizeMatricula (s : String) : String :=
  String.mk (normalizeChars s.data)

/-! ### Lemmas about trimming -/

theorem dropWhile_self (p : α → Bool) (l : List α) :
    (l.dropWhile p).dropWhile p = l.dropWhile p := by
  induction l with
  | nil => rfl
  | cons a l ih =>
    by_cases h : p a
    · simpa [List.dropWhile_cons_of_pos h] using ih
    · simp [List.dropWhile_cons_of_neg h, h]

theorem dropWhile_eq_self_of_all (p : α → Bool) (l : List α)
    (h : ∀ c ∈ l, p c = false) : l.dropWhile p = l := by
  cases l with
  | nil => rfl
  | cons a l =>
    have ha : p a = false := h a (List.mem_cons_self a l)
    simp [List.dropWhile_cons, ha]

theorem dropWhile_eq_self_of_head (p : α → Bool) (l : List α)
    (h : ∀ c, l.head? = some c → p c = false) : l.dropWhile p = l := by
  cases l with
  | nil => rfl
  | cons a l =>
    have ha : p a = false := h a rfl
    simp [List.dropWhile_cons, ha]

theorem getLast?_dropWhile (p : α → Bool) (l : List α)
    (h : l.dropWhile p ≠ []) : (l.dropWhile p).getLast? = l.getLast? := by
  induction l with
  | nil => simp at h
  | cons a l ih =>
    by_cases hp : p a
    · rw [List.dropWhile_cons_of_pos hp] at h ⊢
      have hl : l ≠ [] := by
        intro hnil
        rw [hnil] at h
        simp at h
      rw [ih h]
      cases l with
      | nil => exact absurd rfl hl
      | cons b l' => simp [List.getLast?]
    · rw [List.dropWhile_cons_of_neg hp]

theorem jsTrimList_idem (l : List Char) :
    jsTrimList (jsTrimList l) = jsTrimList l := by
  set p := Char.isWhitespace with hp
  set u := l.dropWhile p with hu
  set t := (u.reverse.dropWhile p).reverse with ht
  have hB : t.dropWhile p = t := by
    apply dropWhile_eq_self_of_head
    intro c hc
    rw [ht, List.head?_reverse] at hc
    by_cases hnil : u.reverse.dropWhile p = []
    · rw [hnil] at hc
      simp at hc
    · rw [getLast?_dropWhile p u.reverse hnil, List.getLast?_reverse] at hc
      have := List.head?_dropWhile_not p l
      rw [← hu] at this
      rw [hc] at this
      exact this
  show ((t.dropWhile p).reverse.dropWhile p).reverse = t
  rw [hB, ht, List.reverse_reverse, dropWhile_self]

theorem jsTrimList_eq_self_of_all (l : List Char)
    (h : ∀ c ∈ l, Char.isWhitespace c = false) : jsTrimList l = l := by
  unfold jsTrimList
  rw [dropWhile_eq_self_of_all _ _ h]
  rw [dropWhile_eq_self_of_all _ _ (by intro c hc; exact h c (List.mem_reverse.mp hc))]
  exact List.reverse_reverse l

theorem isDigit_not_isWhitespace (c : Char) (h : c.isDigit = true) :
    c.isWhitespace = false := by
  by_contra hw
  simp only [Bool.not_eq_false] at hw
  have hcases : c = ' ' ∨ c = '\t' ∨ c = '\r' ∨ c = '\n' := by
    simpa [Char.isWhitespace, Bool.or_eq_true, decide_eq_true_eq, or_assoc] using hw
  rcases hcases with rfl | rfl | rfl | rfl <;> exact absurd h (by decide)

theorem jsTrimList_of_digits (l : List Char) (h : l.all Char.isDigit = true) :
    jsTrimList l = l := by
  apply jsTrimList_eq_self_of_all
  intro c hc
  exact isDigit_not_isWhitespace c (List.all_eq_true.mp h c hc)

/-! ### Normalizer characterization -/

theorem normalizeChars_pad (l : List Char)
    (h1 : regexDigits (jsTrimList l) = true) (h2 : (jsTrimList l).length < 6) :
    normalizeChars l = List.replicate (6 - (jsTrimList l).length) '0' ++ jsTrimList l := by
  unfold normalizeChars
  rw [if_pos h1, if_pos h2]

theorem normalizeChars_not_digits (l : List Char)
    (h1 : regexDigits (jsTrimList l) = false) :
    normalizeChars l = jsTrimList l := by
  unfold normalizeChars
  rw [h1]
  simp

theorem normalizeChars_long (l : List Char)
    (h1 : regexDigits (jsTrimList l) = true) (h2 : ¬ (jsTrimList l).length < 6) :
    normalizeChars l = jsTrimList l := by
  unfold normalizeChars
  rw [if_pos h1, if_neg h2]

theorem pad_all_digits (n : Nat) (t : List Char) (h : t.all Char.isDigit = true) :
    (List.replicate n '0' ++ t).all Char.isDigit = true := by
  simp only [List.all_append, Bool.and_eq_true]
  constructor
  · simp only [List.all_eq_true]
    intro c hc
    rw [List.eq_of_mem_replicate hc]
    decide
  · exact h

theorem regexDigits_pad (n : Nat) (t : List Char) (hn : 0 < n)
    (h : t.all Char.isDigit = true) :
    regexDigits (List.replicate n '0' ++ t) = true := by
  unfold regexDigits
  have hne : List.replicate n '0' ++ t ≠ [] := by
    intro hnil
    rcases List.append_eq_nil.mp hnil with ⟨h1, _⟩
    rw [List.replicate_eq_nil_iff] at h1
    omega
  simp [List.isEmpty_iff, hne, pad_all_digits n t h]

theorem normalizeChars_idem (l : List Char) :
    normalizeChars (normalizeChars l) = normalizeChars l := by
  by_cases h1 : regexDigits (jsTrimList l) = true
  · by_cases h2 : (jsTrimList l).length < 6
    · rw [normalizeChars_pad l h1 h2]
      have hdig : (jsTrimList l).all Char.isDigit = true := by
        unfold regexDigits at h1
        exact (Bool.and_eq_true _ _ |>.mp h1).2
      have hodig : (List.replicate (6 - (jsTrimList l).length) '0' ++ jsTrimList l).all
          Char.isDigit = true := pad_all_digits _ _ hdig
      have htrim : jsTrimList (List.replicate (6 - (jsTrimList l).length) '0' ++ jsTrimList l)
          = List.replicate (6 - (jsTrimList l).length) '0' ++ jsTrimList l :=
        jsTrimList_of_digits _ hodig
      have hreg : regexDigits (jsTrimList (List.replicate (6 - (jsTrimList l).length) '0'
          ++ jsTrimList l)) = true := by
        rw [htrim]
        exact regexDigits_pad _ _ (by omega) hdig
      have hlen : ¬ (jsTrimList (List.replicate (6 - (jsTrimList l).length) '0'
          ++ jsTrimList l)).length < 6 := by
        rw [htrim]
        simp only [List.length_append, List.length_replicate]
        omega
      rw [normalizeChars_long _ hreg hlen, htrim]
    · rw [normalizeChars_long l h1 h2]
      have htrim := jsTrimList_idem l
      have hreg : regexDigits (jsTrimList (jsTrimList l)) = true := by rw [htrim]; exact h1
      have hlen : ¬ (jsTrimList (jsTrimList l)).length < 6 := by rw [htrim]; exact h2
      rw [normalizeChars_long _ hreg hlen, htrim]
  · rw [normalizeChars_not_digits l (Bool.not_eq_true _ |>.mp h1)]
    have htrim := jsTrimList_idem l
    have hreg : regexDigits (jsTrimList (jsTrimList l)) = false := by
      rw [htrim]
      exact Bool.not_eq_true _ |>.mp h1
    rw [normalizeChars_not_digits _ hreg, htrim]

theorem normalizeChars_length_of_short_digits (l : List Char)
    (hd : l.all Char.isDigit = true) (hne : l ≠ []) (hlen : l.length < 6) :
    (normalizeChars l).length = 6 := by
  have htrim : jsTrimList l = l := jsTrimList_of_digits l hd
  have hreg : regexDigits (jsTrimList l) = true := by
    rw [htrim]
    unfold regexDigits
    simp [List.isEmpty_iff, hne, hd]
  have hl : (jsTrimList l).length < 6 := by rw [htrim]; exact hlen
  rw [normalizeChars_pad l hreg hl, htrim]
  simp only [List.length_append, List.length_replicate]
  omega

/-! ## Claims C2 and C9: the key normalizer -/

/-- C2: the key normalizer first trims the raw value; if the trimmed value
consists only of ASCII digits and its length is less than 6 it is left-padded
with zero characters to exactly length 6; otherwise (non-numeric values, and
digit values of length 6 or more) it is returned trimmed but otherwise
unchanged, so in particular values with more than 6 digits are not truncated. -/
theorem c2_normalizer_rule (s : String) :
    (regexDigits (jsTrim s).data = true → (jsTrim s).length < 6 →
      normalizeMatricula s
        = String.mk (List.replicate (6 - (jsTrim s).length) '0' ++ (jsTrim s).data)
      ∧ (normalizeMatricula s).length = 6)
    ∧ (regexDigits (jsTrim s).data = false → normalizeMatricula s = jsTrim s)
    ∧ (regexDigits (jsTrim s).data = true → ¬ (jsTrim s).length < 6 →
      normalizeMatricula s = jsTrim s) := by
  refine ⟨fun h1 h2 => ⟨?_, ?_⟩, fun h1 => ?_, fun h1 h2 => ?_⟩
  · exact congrArg String.mk (normalizeChars_pad s.data h1 h2)
  · show (normalizeChars s.data).length = 6
    rw [normalizeChars_pad s.data h1 h2]
    simp only [List.length_append, List.length_replicate]
    have : (jsTrimList s.data).length < 6 := h2
    omega
  · exact congrArg String.mk (normalizeChars_not_digits s.data h1)
  · exact congrArg String.mk (normalizeChars_long s.data h1 h2)

theorem c2_normalizer_rule_witness :
    (normalizeMatricula "517" = "000517" ∧ (normalizeMatricula "517").length = 6)
    ∧ normalizeMatricula " ABC " = "ABC"
    ∧ normalizeMatricula "1234567" = "1234567" := by
  refine ⟨⟨?_, ((c2_normalizer_rule "517").1 (by decide) (by decide)).2⟩, ?_, ?_⟩
  · exact (((c2_normalizer_rule "517").1 (by decide) (by decide)).1).trans (by decide)
  · exact ((c2_normalizer_rule " ABC ").2.1 (by decide)).trans (by decide)
  · exact ((c2_normalizer_rule "1234567").2.2 (by decide) (by decide)).trans (by decide)

/-- C9: the key normalizer is idempotent on every string, and on an all-digit
string of length less than 6 its output has length exactly 6. -/
theorem c9_normalize_idempotent (s : String) :
    normalizeMatricula (normalizeMatricula s) = normalizeMatricula s
    ∧ (s.data.all Char.isDigit = true → s.data ≠ [] → s.length < 6 →
        (normalizeMatricula s).length = 6) := by
  constructor
  · exact congrArg String.mk (normalizeChars_idem s.data)
  · intro hd hne hlen
    exact normalizeChars_length_of_short_digits s.data hd hne hlen

theorem c9_normalize_idempotent_witness :
    normalizeMatricula (normalizeMatricula "031517") = normalizeMatricula "031517"
    ∧ (normalizeMatricula "517").length = 6
    ∧ normalizeMatricula "517" = "000517"
    ∧ normalizeMatricula "031517" = "031517"
    ∧ normalizeMatricula "1234567" = "1234567"
    ∧ normalizeMatricula "AB12" = "AB12" :=
  ⟨(c9_normalize_idempotent "031517").1,
   (c9_normalize_idempotent "517").2 (by decide) (by decide) (by decide),
   by decide, by decide, by decide, by decide⟩

/-! ## Data model

Row models one element of FileData.data restricted to the three columns the
comparison logic reads.  In the source a column is looked up through a chain
of casing variants (for example MATRICULA, matricula, Matricula, joined with
the JavaScript or-operator); the chain collapses here to one field per
logical column.  A missing or falsy lookup result behaves exactly like the
empty string in every consumer (the or-empty-string defaults and the
truthiness guards), so absence is modeled by the empty string. -/

structure Row where
  matricula : String
  codigoPoligono : String
  codigoCelda : String
deriving DecidableEq, Repr

/-- The FileData interface of page.tsx:633-641 (the data rows restricted to
the compared columns, plus the metadata fields the claims mention). -/
structure FileData where
  name : String
  records : Nat
  data : List Row
  hojaProcesada : String
  hojasDisponibles : List String
deriving DecidableEq, Repr

/-! ## JavaScript Map embedding

A JavaScript Map preserves insertion order; setting an existing key replaces
the value in place (keeping the original position), setting a fresh key
appends.  It is modeled as an association list. -/

abbrev RowMap := List (String × Row)

/-- Map.has -/
def mapHas (m : RowMap) (k : String) : Bool :=
  m.any (fun p => p.1 == k)

/-- Map.set (in-place value replacement for an existing key, append otherwise) -/
def mapSet (m : RowMap) (k : String) (v : Row) : RowMap :=
  if mapHas m k then m.map (fun p => if p.1 == k then (k, v) else p)
  else m ++ [(k, v)]

/-- Map.get (none when the key is absent) -/
def mapGet (m : RowMap) (k : String) : Option Row :=
  (m.find? (fun p => p.1 == k)).map (fun p => p.2)

/-- The indexing loops of compareFiles (page.tsx:1185-1224): every row whose
raw matricula is truthy is inserted under its normalized matricula,
last-write-wins on duplicate keys. -/
def buildMap (rows : List Row) : RowMap :=
  rows.foldl
    (fun acc row =>
      if row.matricula ≠ "" then mapSet acc (normalizeMatricula row.matricula) row
      else acc)
    []

/-! ### Map lemmas -/

theorem keys_map_replace (m : RowMap) (k : String) (v : Row) :
    (m.map (fun p => if p.1 == k then (k, v) else p)).map Prod.fst
      = m.map Prod.fst := by
  rw [List.map_map]
  apply List.map_congr_left
  intro p _
  by_cases hp : p.1 = k
  · simp [hp]
  · simp [hp]

theorem not_mem_keys_of_not_has (m : RowMap) (k : String)
    (h : mapHas m k = false) : k ∉ m.map Prod.fst := by
  intro hk
  rcases List.mem_map.mp hk with ⟨p, hp, hpk⟩
  have : m.any (fun p => p.1 == k) = true :=
    List.any_eq_true.mpr ⟨p, hp, by simp [hpk]⟩
  rw [mapHas, this] at h
  exact Bool.true_eq_false.mp h

theorem nodup_keys_mapSet (m : RowMap) (k : String) (v : Row)
    (h : (m.map Prod.fst).Nodup) : ((mapSet m k v).map Prod.fst).Nodup := by
  unfold mapSet
  by_cases hk : mapHas m k = true
  · rw [if_pos hk, keys_map_replace]
    exact h
  · rw [if_neg hk, List.map_append]
    simp only [List.map_cons, List.map_nil]
    apply List.Nodup.append h (List.nodup_singleton k)
    intro a ha hb
    rw [List.mem_singleton] at hb
    exact not_mem_keys_of_not_has m k (Bool.not_eq_true _ |>.mp hk) (hb ▸ ha)

theorem nodup_keys_buildMap (rows : List Row) :
    ((buildMap rows).map Prod.fst).Nodup := by
  suffices h : ∀ acc : RowMap, (acc.map Prod.fst).Nodup →
      ((rows.foldl
        (fun acc row =>
          if row.matricula ≠ "" then mapSet acc (normalizeMatricula row.matricula) row
          else acc) acc).map Prod.fst).Nodup by
    exact h [] List.nodup_nil
  induction rows with
  | nil => intro acc hacc; exact hacc
  | cons r rows ih =>
    intro acc hacc
    simp only [List.foldl_cons]
    by_cases hr : r.matricula ≠ ""
    · rw [if_pos hr]
      exact ih _ (nodup_keys_mapSet acc _ r hacc)
    · rw [if_neg hr]
      exact ih acc hacc

theorem mapGet_isSome_iff_mapHas (m : RowMap) (k : String) :
    (mapGet m k).isSome = mapHas m k := by
  induction m with
  | nil => rfl
  | cons p m ih =>
    by_cases hp : p.1 = k
    · simp [mapGet, mapHas, List.find?_cons, List.any_cons, hp]
    · simp only [mapGet, mapHas, List.find?_cons, List.any_cons] at ih ⊢
      have hb : (p.1 == k) = false := by
        simpa using hp
      rw [hb]
      simpa using ih

theorem mapGet_eq_some_mem (m : RowMap) (k : String) (r : Row)
    (h : mapGet m k = some r) : (k, r) ∈ m := by
  unfold mapGet at h
  rcases Option.map_eq_some'.mp h with ⟨p, hp, hpr⟩
  have hk : p.1 = k := by
    have := List.find?_some hp
    simpa using this
  have hmem := List.mem_of_find?_eq_some hp
  have hpkr : p = (k, r) := by
    rcases p with ⟨a, b⟩
    simp only at hpr hk
    rw [hpr, hk]
  rw [hpkr] at hmem
  exact hmem

theorem filter_key_of_mapGet_some (m : RowMap) (k : String) (r : Row)
    (hnd : (m.map Prod.fst).Nodup) (h : mapGet m k = some r) :
    m.filter (fun p => p.1 == k) = [(k, r)] := by
  induction m with
  | nil => simp [mapGet] at h
  | cons p m ih =>
    by_cases hp : p.1 = k
    · have hfind : mapGet (p :: m) k = some p.2 := by
        simp [mapGet, List.find?_cons, hp]
      rw [h] at hfind
      have hpr : p = (k, r) := by
        rcases p with ⟨a, b⟩
        simp only at hp
        have hb : r = b := by simpa using hfind
        rw [hp, hb]
      have hnot : k ∉ m.map Prod.fst := by
        simp only [List.map_cons, List.nodup_cons, hpr] at hnd
        exact hnd.1
      have hrest : m.filter (fun p => p.1 == k) = [] := by
        rw [List.filter_eq_nil_iff]
        intro q hq hqk
        exact hnot (List.mem_map.mpr ⟨q, hq, by simpa using hqk⟩)
      subst hpr
      simp [List.filter_cons, hrest]
    · have hget : mapGet m k = some r := by
        simp only [mapGet, List.find?_cons] at h ⊢
        have hb : (p.1 == k) = false := by simpa using hp
        rw [hb] at h
        exact h
      have hb : (p.1 == k) = false := by simpa using hp
      rw [List.filter_cons_of_neg (by simp [hb])]
      apply ih
      · simp only [List.map_cons, List.nodup_cons] at hnd
        exact hnd.2
      · exact hget

theorem filter_key_of_mapGet_none (m : RowMap) (k : String)
    (h : mapGet m k = none) :
    m.filter (fun p => p.1 == k) = [] := by
  rw [List.filter_eq_nil_iff]
  intro q hq hqk
  unfold mapGet at h
  rw [Option.map_eq_none'] at h
  exact List.find?_eq_none.mp h q hq hqk

theorem mapHas_false_of_mapGet_none (m : RowMap) (k : String)
    (h : mapGet m k = none) : mapHas m k = false := by
  rw [← mapGet_isSome_iff_mapHas, h]
  rfl

theorem mapHas_true_of_mapGet_some (m : RowMap) (k : String) (r : Row)
    (h : mapGet m k = some r) : mapHas m k = true := by
  rw [← mapGet_isSome_iff_mapHas, h]
  rfl

/-! ## Reconciler (compareFiles, page.tsx:1169-1326) -/

inductive DiffStatus where
  | actualizar_poligono
  | actualizar_celda
  | actualizar_ambos
  | sin_cambios
  | nuevo_registro
deriving DecidableEq, Repr

/-- One side-by-side attribute comparison inside a DiffEntry. -/
structure AttrComparison where
  archivo1 : String
  archivo2 : String
  necesitaActualizar : Bool
deriving DecidableEq, Repr

structure DiffEntry where
  matricula : String
  codigoPoligono : AttrComparison
  codigoCelda : AttrComparison
  status : DiffStatus
deriving DecidableEq, Repr

structure ComparisonResult where
  matching : Nat
  nonMatching : Nat
  total : Nat
  differences : List DiffEntry
deriving DecidableEq, Repr

/-- The both-sides branch of the comparison loop (page.tsx:1230-1268):
compare the two attributes by exact string equality; a differing pair pushes
a DiffEntry classified by which attributes differ, an equal pair pushes
nothing (it only increments the matching counter). -/
def comparePresent (matricula : String) (row1 row2 : Row) : Option DiffEntry :=
  let poligonoDiferente := row1.codigoPoligono != row2.codigoPoligono
  let celdaDiferente := row1.codigoCelda != row2.codigoCelda
  if poligonoDiferente || celdaDiferente then
    some
      { matricula := matricula
        codigoPoligono :=
          ⟨row1.codigoPoligono, row2.codigoPoligono, poligonoDiferente⟩
        codigoCelda := ⟨row1.codigoCelda, row2.codigoCelda, celdaDiferente⟩
        status :=
          if poligonoDiferente && celdaDiferente then .actualizar_ambos
          else if poligonoDiferente then .actualizar_poligono
          else .actualizar_celda }
  else none

/-- The left-only branch (page.tsx:1269-1286): the record only exists in
file 1; both necesitaActualizar flags are set to true unconditionally. -/
def nuevoEntry (matricula : String) (row1 : Row) : DiffEntry :=
  { matricula := matricula
    codigoPoligono := ⟨row1.codigoPoligono, "", true⟩
    codigoCelda := ⟨row1.codigoCelda, "", true⟩
    status := .nuevo_registro }

/-- The right-only loop (page.tsx:1289-1308): the record only exists in
file 2; both necesitaActualizar flags are set to false unconditionally. -/
def sinCambiosEntry (matricula : String) (row2 : Row) : DiffEntry :=
  { matricula := matricula
    codigoPoligono := ⟨"", row2.codigoPoligono, false⟩
    codigoCelda := ⟨"", row2.codigoCelda, false⟩
    status := .sin_cambios }

/-- True when an entry of the file-1 map finds an equal record in the
file-2 map (the matching counter increment of page.tsx:1266-1268). -/
def isMatchPair (file2Map : RowMap) (kr : String × Row) : Bool :=
  match mapGet file2Map kr.1 with
  | some row2 => (comparePresent kr.1 kr.2 row2).isNone
  | none => false

/-- The entry (if any) pushed for one file-1 map entry by the main loop. -/
def entryFromFile1 (file2Map : RowMap) (kr : String × Row) : Option DiffEntry :=
  match mapGet file2Map kr.1 with
  | some row2 => comparePresent kr.1 kr.2 row2
  | none => some (nuevoEntry kr.1 kr.2)

/-- The entry (if any) pushed for one file-2 map entry by the second loop. -/
def entryFromFile2 (file1Map : RowMap) (kr : String × Row) : Option DiffEntry :=
  if mapHas file1Map kr.1 then none else some (sinCambiosEntry kr.1 kr.2)

/-- compareFiles (page.tsx:1169-1326), rendered without mutation: both
forEach loops push entries in iteration order (filterMap), the matching
counter counts the equal pairs (countP), the nonMatching counter is
incremented exactly once per pushed entry, and total is the raw sum of the
two stored record counts. -/
def compareFiles (file1 file2 : FileData) : ComparisonResult :=
  let file1Map := buildMap file1.data
  let file2Map := buildMap file2.data
  let fromFile1 := file1Map.filterMap (entryFromFile1 file2Map)
  let fromFile2 := file2Map.filterMap (entryFromFile2 file1Map)
  { matching := file1Map.countP (isMatchPair file2Map)
    nonMatching := fromFile1.length + fromFile2.length
    total := file1.records + file2.records
    differences := fromFile1 ++ fromFile2 }

/-- All DiffEntries of a result carrying a given normalized id. -/
def entriesFor (res : ComparisonResult) (k : String) : List DiffEntry :=
  res.differences.filter (fun d => d.matricula == k)

/-! ### Reconciler lemmas -/

theorem comparePresent_some_spec (k : String) (r1 r2 : Row) (d : DiffEntry)
    (h : comparePresent k r1 r2 = some d) :
    d.matricula = k
    ∧ d.codigoPoligono
        = ⟨r1.codigoPoligono, r2.codigoPoligono, r1.codigoPoligono != r2.codigoPoligono⟩
    ∧ d.codigoCelda = ⟨r1.codigoCelda, r2.codigoCelda, r1.codigoCelda != r2.codigoCelda⟩
    ∧ (d.status = .actualizar_poligono ∨ d.status = .actualizar_celda
        ∨ d.status = .actualizar_ambos) := by
  simp only [comparePresent] at h
  split at h
  · injection h with h
    subst h
    refine ⟨rfl, rfl, rfl, ?_⟩
    by_cases hp : (r1.codigoPoligono != r2.codigoPoligono) = true <;>
      by_cases hc : (r1.codigoCelda != r2.codigoCelda) = true <;>
      simp [hp, hc]
  · exact absurd h (by simp)

theorem comparePresent_key (k : String) (r1 r2 : Row) (d : DiffEntry)
    (h : comparePresent k r1 r2 = some d) : d.matricula = k :=
  (comparePresent_some_spec k r1 r2 d h).1

theorem comparePresent_eq_none (k : String) (r1 r2 : Row)
    (hA : r1.codigoPoligono = r2.codigoPoligono)
    (hB : r1.codigoCelda = r2.codigoCelda) :
    comparePresent k r1 r2 = none := by
  simp [comparePresent, hA, hB]

theorem comparePresent_poligono (k : String) (r1 r2 : Row)
    (hA : r1.codigoPoligono ≠ r2.codigoPoligono)
    (hB : r1.codigoCelda = r2.codigoCelda) :
    (comparePresent k r1 r2).map DiffEntry.status
      = some .actualizar_poligono := by
  simp [comparePresent, hA, hB]

theorem comparePresent_celda (k : String) (r1 r2 : Row)
    (hA : r1.codigoPoligono = r2.codigoPoligono)
    (hB : r1.codigoCelda ≠ r2.codigoCelda) :
    (comparePresent k r1 r2).map DiffEntry.status = some .actualizar_celda := by
  simp [comparePresent, hA, hB]

theorem comparePresent_ambos (k : String) (r1 r2 : Row)
    (hA : r1.codigoPoligono ≠ r2.codigoPoligono)
    (hB : r1.codigoCelda ≠ r2.codigoCelda) :
    (comparePresent k r1 r2).map DiffEntry.status = some .actualizar_ambos := by
  simp [comparePresent, hA, hB]

theorem entryFromFile1_key (m2 : RowMap) (p : String × Row) (e : DiffEntry)
    (h : entryFromFile1 m2 p = some e) : e.matricula = p.1 := by
  unfold entryFromFile1 at h
  cases hg : mapGet m2 p.1 with
  | some row2 =>
    rw [hg] at h
    exact comparePresent_key p.1 p.2 row2 e h
  | none =>
    rw [hg] at h
    injection h with h
    rw [← h]
    rfl

theorem entryFromFile2_key (m1 : RowMap) (p : String × Row) (e : DiffEntry)
    (h : entryFromFile2 m1 p = some e) : e.matricula = p.1 := by
  unfold entryFromFile2 at h
  by_cases hh : mapHas m1 p.1 = true
  · rw [if_pos hh] at h
    exact absurd h (by simp)
  · rw [if_neg hh] at h
    injection h with h
    rw [← h]
    rfl

theorem filter_filterMap_key {g : (String × Row) → Option DiffEntry}
    (hg : ∀ p e, g p = some e → e.matricula = p.1) (l : RowMap) (k : String) :
    (l.filterMap g).filter (fun d => d.matricula == k)
      = (l.filter (fun p => p.1 == k)).filterMap g := by
  induction l with
  | nil => rfl
  | cons p l ih =>
    cases hgp : g p with
    | none =>
      by_cases hp : p.1 = k <;>
        simp [List.filterMap_cons, List.filter_cons, hgp, hp, ih]
    | some e =>
      have he : e.matricula = p.1 := hg p e hgp
      by_cases hp : p.1 = k <;>
        simp [List.filterMap_cons, List.filter_cons, hgp, he, hp, ih]

theorem differences_eq (file1 file2 : FileData) :
    (compareFiles file1 file2).differences
      = (buildMap file1.data).filterMap (entryFromFile1 (buildMap file2.data))
        ++ (buildMap file2.data).filterMap (entryFromFile2 (buildMap file1.data)) :=
  rfl

theorem entriesFor_split (file1 file2 : FileData) (k : String) :
    entriesFor (compareFiles file1 file2) k
      = ((buildMap file1.data).filter (fun p => p.1 == k)).filterMap
          (entryFromFile1 (buildMap file2.data))
        ++ ((buildMap file2.data).filter (fun p => p.1 == k)).filterMap
          (entryFromFile2 (buildMap file1.data)) := by
  unfold entriesFor
  rw [differences_eq, List.filter_append,
    filter_filterMap_key (entryFromFile1_key (buildMap file2.data)),
    filter_filterMap_key (entryFromFile2_key (buildMap file1.data))]

theorem entriesFor_left_present (file1 file2 : FileData) (k : String) (r1 : Row)
    (h1 : mapGet (buildMap file1.data) k = some r1) :
    entriesFor (compareFiles file1 file2) k
      = (entryFromFile1 (buildMap file2.data) (k, r1)).toList := by
  rw [entriesFor_split,
    filter_key_of_mapGet_some _ _ _ (nodup_keys_buildMap file1.data) h1]
  have h2 : ((buildMap file2.data).filter (fun p => p.1 == k)).filterMap
      (entryFromFile2 (buildMap file1.data)) = [] := by
    rw [List.filterMap_eq_nil_iff]
    intro q hq
    have hqk : q.1 = k := by
      have := List.of_mem_filter hq
      simpa using this
    unfold entryFromFile2
    rw [hqk, if_pos (mapHas_true_of_mapGet_some _ _ _ h1)]
  rw [h2, List.append_nil]
  cases hg : entryFromFile1 (buildMap file2.data) (k, r1) with
  | none => simp [List.filterMap_cons_none hg]
  | some e => simp [List.filterMap_cons_some hg]

theorem entriesFor_right_only (file1 file2 : FileData) (k : String) (r2 : Row)
    (h1 : mapGet (buildMap file1.data) k = none)
    (h2 : mapGet (buildMap file2.data) k = some r2) :
    entriesFor (compareFiles file1 file2) k = [sinCambiosEntry k r2] := by
  rw [entriesFor_split, filter_key_of_mapGet_none _ _ h1,
    filter_key_of_mapGet_some _ _ _ (nodup_keys_buildMap file2.data) h2]
  have hg : entryFromFile2 (buildMap file1.data) (k, r2)
      = some (sinCambiosEntry k r2) := by
    unfold entryFromFile2
    rw [if_neg (by rw [mapHas_false_of_mapGet_none _ _ h1]; exact Bool.false_ne_true)]
  simp [List.filterMap_cons_some hg]

theorem entriesFor_neither (file1 file2 : FileData) (k : String)
    (h1 : mapGet (buildMap file1.data) k = none)
    (h2 : mapGet (buildMap file2.data) k = none) :
    entriesFor (compareFiles file1 file2) k = [] := by
  rw [entriesFor_split, filter_key_of_mapGet_none _ _ h1,
    filter_key_of_mapGet_none _ _ h2]
  rfl

theorem keys_mapSet_cases (m : RowMap) (k : String) (v : Row) :
    (mapSet m k v).map Prod.fst = m.map Prod.fst ∨
    (mapSet m k v).map Prod.fst = m.map Prod.fst ++ [k] := by
  unfold mapSet
  by_cases h : mapHas m k = true
  · rw [if_pos h, keys_map_replace]
    exact Or.inl rfl
  · rw [if_neg h]
    right
    simp

theorem mapHas_iff_mem_keys (m : RowMap) (k : String) :
    mapHas m k = true ↔ k ∈ m.map Prod.fst := by
  unfold mapHas
  rw [List.any_eq_true]
  constructor
  · rintro ⟨p, hp, hpk⟩
    exact List.mem_map.mpr ⟨p, hp, by simpa using hpk⟩
  · intro hk
    rcases List.mem_map.mp hk with ⟨p, hp, hpk⟩
    exact ⟨p, hp, by simp [hpk]⟩

theorem mapHas_mapSet (m : RowMap) (k0 : String) (v : Row) (k : String)
    (h : mapHas (mapSet m k0 v) k = true) : mapHas m k = true ∨ k = k0 := by
  rw [mapHas_iff_mem_keys] at h
  rcases keys_mapSet_cases m k0 v with he | he
  · rw [he] at h
    exact Or.inl (mapHas_iff_mem_keys m k |>.mpr h)
  · rw [he] at h
    rcases List.mem_append.mp h with h1 | h1
    · exact Or.inl (mapHas_iff_mem_keys m k |>.mpr h1)
    · exact Or.inr (List.mem_singleton.mp h1)

theorem buildMap_key_source (rows : List Row) (k : String)
    (h : mapHas (buildMap rows) k = true) :
    ∃ row ∈ rows, row.matricula ≠ "" ∧ normalizeMatricula row.matricula = k := by
  suffices h' : ∀ acc : RowMap,
      mapHas (rows.foldl
        (fun acc row =>
          if row.matricula ≠ "" then mapSet acc (normalizeMatricula row.matricula) row
          else acc) acc) k = true →
      mapHas acc k = true
        ∨ ∃ row ∈ rows, row.matricula ≠ "" ∧ normalizeMatricula row.matricula = k by
    rcases h' [] h with hnil | hrow
    · exact absurd hnil (by simp [mapHas])
    · exact hrow
  clear h
  induction rows with
  | nil => intro acc ha; exact Or.inl ha
  | cons r rows ih =>
    intro acc ha
    simp only [List.foldl_cons] at ha
    by_cases hr : r.matricula ≠ ""
    · rw [if_pos hr] at ha
      rcases ih _ ha with hacc | ⟨row, hrow, hprop⟩
      · rcases mapHas_mapSet _ _ _ _ hacc with h1 | h1
        · exact Or.inl h1
        · exact Or.inr ⟨r, List.mem_cons_self r rows, hr, h1.symm⟩
      · exact Or.inr ⟨row, List.mem_cons_of_mem r hrow, hprop⟩
    · rw [if_neg hr] at ha
      rcases ih _ ha with hacc | ⟨row, hrow, hprop⟩
      · exact Or.inl hacc
      · exact Or.inr ⟨row, List.mem_cons_of_mem r hrow, hprop⟩

theorem countP_key_filter (m : RowMap) (k : String) (P : (String × Row) → Bool) :
    m.countP (fun kr => kr.1 == k && P kr)
      = ((m.filter (fun p => p.1 == k)).filter P).length := by
  rw [List.countP_eq_length_filter, List.filter_filter]
  congr 1
  apply List.filter_congr
  intro a _
  exact Bool.and_comm (a.1 == k) (P a)

/-- Fixture: a FileData around a given row list (names and sheet metadata are
inert for the reconciler). -/
def mkFile (data : List Row) : FileData :=
  { name := "archivo.xlsx"
    records := data.length
    data := data
    hojaProcesada := "LPRA110"
    hojasDisponibles := ["Hoja1", "LPRA110"] }

/-! ## Claim C1: classification correctness -/

/-- C1: for every pair of files and every normalized id, an id present in
both maps with only codigoPoligono differing yields exactly one DiffEntry of
status actualizar_poligono; only codigoCelda differing yields
actualizar_celda; both differing yields actualizar_ambos; no difference
yields no DiffEntry at all; an id only in the file-1 map yields
nuevo_registro; an id only in the file-2 map yields sin_cambios. -/
theorem c1_classification (file1 file2 : FileData) (k : String) :
    (∀ r1 r2, mapGet (buildMap file1.data) k = some r1 →
      mapGet (buildMap file2.data) k = some r2 →
      (r1.codigoPoligono ≠ r2.codigoPoligono → r1.codigoCelda = r2.codigoCelda →
        (entriesFor (compareFiles file1 file2) k).map DiffEntry.status
          = [DiffStatus.actualizar_poligono])
      ∧ (r1.codigoPoligono = r2.codigoPoligono → r1.codigoCelda ≠ r2.codigoCelda →
        (entriesFor (compareFiles file1 file2) k).map DiffEntry.status
          = [DiffStatus.actualizar_celda])
      ∧ (r1.codigoPoligono ≠ r2.codigoPoligono → r1.codigoCelda ≠ r2.codigoCelda →
        (entriesFor (compareFiles file1 file2) k).map DiffEntry.status
          = [DiffStatus.actualizar_ambos])
      ∧ (r1.codigoPoligono = r2.codigoPoligono → r1.codigoCelda = r2.codigoCelda →
        entriesFor (compareFiles file1 file2) k = []))
    ∧ (∀ r1, mapGet (buildMap file1.data) k = some r1 →
        mapGet (buildMap file2.data) k = none →
        (entriesFor (compareFiles file1 file2) k).map DiffEntry.status
          = [DiffStatus.nuevo_registro])
    ∧ (∀ r2, mapGet (buildMap file1.data) k = none →
        mapGet (buildMap file2.data) k = some r2 →
        (entriesFor (compareFiles file1 file2) k).map DiffEntry.status
          = [DiffStatus.sin_cambios]) := by
  refine ⟨fun r1 r2 h1 h2 => ?_, fun r1 h1 h2 => ?_, fun r2 h1 h2 => ?_⟩
  · have hE : entryFromFile1 (buildMap file2.data) (k, r1) = comparePresent k r1 r2 := by
      unfold entryFromFile1
      simp only
      rw [h2]
    refine ⟨fun hA hB => ?_, fun hA hB => ?_, fun hA hB => ?_, fun hA hB => ?_⟩
    · rcases Option.map_eq_some'.mp (comparePresent_poligono k r1 r2 hA hB) with ⟨d, hd, hds⟩
      rw [entriesFor_left_present file1 file2 k r1 h1, hE, hd]
      simp [hds]
    · rcases Option.map_eq_some'.mp (comparePresent_celda k r1 r2 hA hB) with ⟨d, hd, hds⟩
      rw [entriesFor_left_present file1 file2 k r1 h1, hE, hd]
      simp [hds]
    · rcases Option.map_eq_some'.mp (comparePresent_ambos k r1 r2 hA hB) with ⟨d, hd, hds⟩
      rw [entriesFor_left_present file1 file2 k r1 h1, hE, hd]
      simp [hds]
    · rw [entriesFor_left_present file1 file2 k r1 h1, hE,
        comparePresent_eq_none k r1 r2 hA hB]
      rfl
  · have hE : entryFromFile1 (buildMap file2.data) (k, r1)
        = some (nuevoEntry k r1) := by
      unfold entryFromFile1
      simp only
      rw [h2]
    rw [entriesFor_left_present file1 file2 k r1 h1, hE]
    simp [nuevoEntry]
  · rw [entriesFor_right_only file1 file2 k r2 h1 h2]
    simp [sinCambiosEntry]

theorem c1_classification_witness :
    (entriesFor
        (compareFiles (mkFile [⟨"517", "10", "20"⟩]) (mkFile [⟨"000517", "10", "99"⟩]))
        "000517").map DiffEntry.status
      = [DiffStatus.actualizar_celda] := by
  have h := (c1_classification (mkFile [⟨"517", "10", "20"⟩])
    (mkFile [⟨"000517", "10", "99"⟩]) "000517").1
    ⟨"517", "10", "20"⟩ ⟨"000517", "10", "99"⟩ (by decide) (by decide)
  exact h.2.1 (by decide) (by decide)

/-! ## Claim C3: reconciliation completeness -/

/-- C3 (amended): for every normalized id present in at least one of the two
maps, the id accounts for exactly one unit: one DiffEntry in the result, or
one increment of the matching counter; and every map key originates from a
record whose raw matricula was non-empty (truthy).  The exclusion performed
before matching is on the raw value being falsy, not on the normalized id
being empty: a whitespace-only raw id normalizes to the empty string and
still participates (see the counterexample). -/
theorem c3_completeness (file1 file2 : FileData) (k : String)
    (hk : mapHas (buildMap file1.data) k = true
      ∨ mapHas (buildMap file2.data) k = true) :
    (entriesFor (compareFiles file1 file2) k).length
      + (buildMap file1.data).countP
          (fun kr => kr.1 == k && isMatchPair (buildMap file2.data) kr) = 1
    ∧ ∃ row, (row ∈ file1.data ∨ row ∈ file2.data)
        ∧ row.matricula ≠ "" ∧ normalizeMatricula row.matricula = k := by
  constructor
  · cases hm1 : mapGet (buildMap file1.data) k with
    | some r1 =>
      rw [countP_key_filter,
        filter_key_of_mapGet_some _ _ _ (nodup_keys_buildMap file1.data) hm1,
        entriesFor_left_present file1 file2 k r1 hm1]
      cases hm2 : mapGet (buildMap file2.data) k with
      | some r2 =>
        have hE : entryFromFile1 (buildMap file2.data) (k, r1)
            = comparePresent k r1 r2 := by
          unfold entryFromFile1
          simp only
          rw [hm2]
        have hM : isMatchPair (buildMap file2.data) (k, r1)
            = (comparePresent k r1 r2).isNone := by
          unfold isMatchPair
          simp only
          rw [hm2]
        rw [hE]
        cases hcp : comparePresent k r1 r2 with
        | none => simp [List.filter_cons, hM, hcp]
        | some d => simp [List.filter_cons, hM, hcp]
      | none =>
        have hE : entryFromFile1 (buildMap file2.data) (k, r1)
            = some (nuevoEntry k r1) := by
          unfold entryFromFile1
          simp only
          rw [hm2]
        have hM : isMatchPair (buildMap file2.data) (k, r1) = false := by
          unfold isMatchPair
          simp only
          rw [hm2]
        rw [hE]
        simp [List.filter_cons, hM]
    | none =>
      rw [countP_key_filter, filter_key_of_mapGet_none _ _ hm1]
      cases hm2 : mapGet (buildMap file2.data) k with
      | some r2 =>
        rw [entriesFor_right_only file1 file2 k r2 hm1 hm2]
        rfl
      | none =>
        exfalso
        rcases hk with hk | hk
        · rw [mapHas_false_of_mapGet_none _ _ hm1] at hk
          exact Bool.false_ne_true hk
        · rw [mapHas_false_of_mapGet_none _ _ hm2] at hk
          exact Bool.false_ne_true hk
  · rcases hk with hk | hk
    · rcases buildMap_key_source file1.data k hk with ⟨row, hrow, hprop⟩
      exact ⟨row, Or.inl hrow, hprop⟩
    · rcases buildMap_key_source file2.data k hk with ⟨row, hrow, hprop⟩
      exact ⟨row, Or.inr hrow, hprop⟩

theorem c3_completeness_witness :
    (entriesFor (compareFiles (mkFile [⟨"517", "10", "20"⟩]) (mkFile [])) "000517").length
      + (buildMap (mkFile [⟨"517", "10", "20"⟩]).data).countP
          (fun kr => kr.1 == "000517"
            && isMatchPair (buildMap (mkFile [] : FileData).data) kr) = 1
    ∧ ∃ row, (row ∈ (mkFile [⟨"517", "10", "20"⟩]).data ∨ row ∈ (mkFile [] : FileData).data)
        ∧ row.matricula ≠ "" ∧ normalizeMatricula row.matricula = "000517" :=
  c3_completeness (mkFile [⟨"517", "10", "20"⟩]) (mkFile []) "000517"
    (Or.inl (by decide))

/-- C3 counterexample: a record whose raw matricula is a single space is
truthy, normalizes to the empty string, and is not excluded: it enters the
file-1 map under the empty-string key and yields a DiffEntry, refuting the
clause that records normalizing to the empty string are excluded from both
sides before matching. -/
theorem c3_empty_id_counterexample :
    normalizeMatricula " " = ""
    ∧ mapHas (buildMap [⟨" ", "A", "B"⟩]) "" = true
    ∧ (entriesFor (compareFiles (mkFile [⟨" ", "A", "B"⟩]) (mkFile [])) "").length = 1 := by
  refine ⟨by decide, by decide, by decide⟩

/-! ## Claim C4: necesitaActualizar flags -/

/-- C4 (amended): in every DiffEntry, for a matched id (one of the three
update statuses) each necesitaActualizar flag is true exactly when the two
values differ; but for a nuevo_registro entry both flags are unconditionally
true, even for an attribute whose left value is empty, and for a sin_cambios
entry both flags are unconditionally false, even when the values differ. -/
theorem c4_needsUpdate_flags (file1 file2 : FileData) (d : DiffEntry)
    (hd : d ∈ (compareFiles file1 file2).differences) :
    ((d.status = .actualizar_poligono ∨ d.status = .actualizar_celda
        ∨ d.status = .actualizar_ambos) →
      (d.codigoPoligono.necesitaActualizar = true
          ↔ d.codigoPoligono.archivo1 ≠ d.codigoPoligono.archivo2)
      ∧ (d.codigoCelda.necesitaActualizar = true
          ↔ d.codigoCelda.archivo1 ≠ d.codigoCelda.archivo2))
    ∧ (d.status = .nuevo_registro →
      d.codigoPoligono.necesitaActualizar = true
      ∧ d.codigoCelda.necesitaActualizar = true)
    ∧ (d.status = .sin_cambios →
      d.codigoPoligono.necesitaActualizar = false
      ∧ d.codigoCelda.necesitaActualizar = false) := by
  rw [differences_eq] at hd
  rcases List.mem_append.mp hd with h1 | h1
  · rcases List.mem_filterMap.mp h1 with ⟨p, hp, hg⟩
    unfold entryFromFile1 at hg
    cases hm : mapGet (buildMap file2.data) p.1 with
    | some row2 =>
      rw [hm] at hg
      obtain ⟨hk, hA, hB, hs⟩ := comparePresent_some_spec p.1 p.2 row2 d hg
      refine ⟨fun _ => ⟨?_, ?_⟩, fun hst => ?_, fun hst => ?_⟩
      · rw [hA]
        simp [bne_iff_ne]
      · rw [hB]
        simp [bne_iff_ne]
      · rcases hs with h | h | h <;> exact absurd (h.symm.trans hst) (by decide)
      · rcases hs with h | h | h <;> exact absurd (h.symm.trans hst) (by decide)
    | none =>
      rw [hm] at hg
      injection hg with hg
      rw [← hg]
      simp [nuevoEntry]
  · rcases List.mem_filterMap.mp h1 with ⟨p, hp, hg⟩
    unfold entryFromFile2 at hg
    by_cases hh : mapHas (buildMap file1.data) p.1 = true
    · rw [if_pos hh] at hg
      exact absurd hg (by simp)
    · rw [if_neg hh] at hg
      injection hg with hg
      rw [← hg]
      simp [sinCambiosEntry]

theorem c4_needsUpdate_flags_witness :
    (⟨"100000", ⟨"", "", true⟩, ⟨"5", "", true⟩, .nuevo_registro⟩
        : DiffEntry).codigoPoligono.necesitaActualizar = true
    ∧ (⟨"100000", ⟨"", "", true⟩, ⟨"5", "", true⟩, .nuevo_registro⟩
        : DiffEntry).codigoCelda.necesitaActualizar = true :=
  (c4_needsUpdate_flags (mkFile [⟨"100000", "", "5"⟩]) (mkFile [])
    ⟨"100000", ⟨"", "", true⟩, ⟨"5", "", true⟩, .nuevo_registro⟩
    (by decide)).2.1 rfl

/-- C4 counterexample: with a left record whose codigoPoligono is empty and
an id absent from the right file, the emitted nuevo_registro entry carries
necesitaActualizar = true for codigoPoligono although its left and right
values are both empty and therefore equal, refuting the claimed equivalence
needsUpdate iff the values differ, and refuting that needsUpdate is true
exactly for the non-empty left attributes of a new entry. -/
theorem c4_needsUpdate_counterexample :
    ((compareFiles (mkFile [⟨"100000", "", "5"⟩]) (mkFile [])).differences).map
        (fun d => (d.status, d.codigoPoligono.archivo1, d.codigoPoligono.archivo2,
          d.codigoPoligono.necesitaActualizar))
      = [(DiffStatus.nuevo_registro, "", "", true)] := by
  decide

/-! ## Update-script generator (generateScripts, page.tsx:1328-1404) -/

/-- Models the JavaScript regular-expression test of exactly five digits
anchored at both ends. -/
def regexFiveDigits (s : String) : Bool :=
  s.data.length == 5 && s.data.all Char.isDigit

/-- The leading-zero repair applied to the key right before interpolation in
the UPDATE statement (page.tsx:1352-1355): a key of exactly five digits gets
one zero put in front; any other key is left alone. -/
def matriculaCorregida (m : String) : String :=
  if regexFiveDigits m then "0" ++ m else m

/-- Array.prototype.join with the comma-space separator. -/
def joinComma : List String → String
  | [] => ""
  | [u] => u
  | u :: v :: rest => u ++ ", " ++ joinComma (v :: rest)

/-- The SET clauses collected for one DiffEntry (page.tsx:1343-1349): one per
attribute whose necesitaActualizar flag is true and whose archivo1 value is
truthy (non-empty); the value is interpolated verbatim, without quotes. -/
def updateClauses (d : DiffEntry) : List String :=
  (if d.codigoPoligono.necesitaActualizar && d.codigoPoligono.archivo1 != "" then
    ["cod_poligono = " ++ d.codigoPoligono.archivo1]
  else [])
  ++ (if d.codigoCelda.necesitaActualizar && d.codigoCelda.archivo1 != "" then
    ["cod_celda = " ++ d.codigoCelda.archivo1]
  else [])

/-- The UPDATE statement for one DiffEntry (page.tsx:1342-1359): none when no
SET clause qualifies (the null filtered out afterwards). -/
def updateStatementFor (d : DiffEntry) : Option String :=
  if (updateClauses d).length > 0 then
    some ("UPDATE EDESURFLX_SGD.UTRANSFORMADORA_LT SET "
      ++ joinComma (updateClauses d)
      ++ " WHERE instalacao = '" ++ matriculaCorregida d.matricula ++ "';")
  else none

/-- The status filter of page.tsx:1341 (the four update-worthy statuses). -/
def isUpdateTarget (s : DiffStatus) : Bool :=
  s == .actualizar_poligono || s == .actualizar_celda || s == .actualizar_ambos
    || s == .nuevo_registro

/-- The list of UPDATE statements of generateScripts (page.tsx:1340-1361). -/
def updateStatements (differences : List DiffEntry) : List String :=
  (differences.filter (fun d => isUpdateTarget d.status)).filterMap updateStatementFor

/-! ## Claim C6: update-statement filtering -/

theorem isUpdateTarget_eq_not_sin_cambios (s : DiffStatus) :
    isUpdateTarget s = (s != DiffStatus.sin_cambios) := by
  cases s <;> rfl

/-- C6: the update script contains at most one UPDATE statement per DiffEntry
whose status is not sin_cambios; an entry qualifies a SET clause for an
attribute only when that attribute needs update and has a non-empty left
value; an entry with no qualifying attribute produces zero statements (it is
filtered out, not emitted as a no-op), and a sin_cambios entry produces
nothing at all. -/
theorem c6_update_filtering (diffs : List DiffEntry) :
    (updateStatements diffs).length
      ≤ (diffs.filter (fun d => d.status != DiffStatus.sin_cambios)).length
    ∧ (∀ d : DiffEntry,
        ¬ ((d.codigoPoligono.necesitaActualizar = true
              ∧ d.codigoPoligono.archivo1 ≠ "")
          ∨ (d.codigoCelda.necesitaActualizar = true
              ∧ d.codigoCelda.archivo1 ≠ "")) →
        updateStatementFor d = none)
    ∧ (∀ d : DiffEntry, d.status = DiffStatus.sin_cambios →
        updateStatements [d] = []) := by
  refine ⟨?_, fun d hnot => ?_, fun d hst => ?_⟩
  · have hfe : diffs.filter (fun d => isUpdateTarget d.status)
        = diffs.filter (fun d => d.status != DiffStatus.sin_cambios) := by
      apply List.filter_congr
      intro d _
      exact isUpdateTarget_eq_not_sin_cambios d.status
    calc (updateStatements diffs).length
        ≤ (diffs.filter (fun d => isUpdateTarget d.status)).length :=
          List.length_filterMap_le _ _
      _ = (diffs.filter (fun d => d.status != DiffStatus.sin_cambios)).length := by
          rw [hfe]
  · have hA : (d.codigoPoligono.necesitaActualizar
        && d.codigoPoligono.archivo1 != "") = false := by
      by_contra hc
      rw [Bool.not_eq_false, Bool.and_eq_true, bne_iff_ne] at hc
      exact hnot (Or.inl hc)
    have hB : (d.codigoCelda.necesitaActualizar
        && d.codigoCelda.archivo1 != "") = false := by
      by_contra hc
      rw [Bool.not_eq_false, Bool.and_eq_true, bne_iff_ne] at hc
      exact hnot (Or.inr hc)
    simp [updateStatementFor, updateClauses, hA, hB]
  · simp [updateStatements, isUpdateTarget, hst]

/-- Fixture: an actualizar_poligono entry whose left poligono value is empty
(no qualifying SET clause). -/
def entrySinClausula : DiffEntry :=
  ⟨"031517", ⟨"", "X", true⟩, ⟨"5", "5", false⟩, .actualizar_poligono⟩

theorem c6_update_filtering_witness :
    (updateStatements [entrySinClausula]).length
      ≤ ([entrySinClausula].filter
          (fun d => d.status != DiffStatus.sin_cambios)).length
    ∧ updateStatementFor entrySinClausula = none :=
  ⟨(c6_update_filtering [entrySinClausula]).1,
   (c6_update_filtering [entrySinClausula]).2.1 entrySinClausula (by decide)⟩

/-! ## Claim C10: quoting inside the UPDATE statement -/

/-- The single-quote character. -/
def quoteChar : Char := Char.ofNat 39

theorem c10_helper_qa (d : DiffEntry)
    (hqA : (d.codigoPoligono.necesitaActualizar
      && d.codigoPoligono.archivo1 != "") = true)
    (hqB : (d.codigoCelda.necesitaActualizar
      && d.codigoCelda.archivo1 != "") = false) :
    updateStatementFor d
      = some ("UPDATE EDESURFLX_SGD.UTRANSFORMADORA_LT SET "
        ++ ("cod_poligono = " ++ d.codigoPoligono.archivo1)
        ++ " WHERE instalacao = '" ++ matriculaCorregida d.matricula ++ "';") := by
  simp [updateStatementFor, updateClauses, hqA, hqB, joinComma]

/-- C10: the WHERE clause wraps the (repaired) key in single quotes while the
SET clauses interpolate the attribute values verbatim and unquoted: each
qualifying shape produces exactly the template below, and in the
poligono-only shape, when neither the value nor the key contains a quote
character, the whole statement contains exactly two quote characters (the
two around the key), so a non-numeric value stands as an unquoted token. -/
theorem c10_quoting (d : DiffEntry) :
    ((d.codigoPoligono.necesitaActualizar
        && d.codigoPoligono.archivo1 != "") = true →
      (d.codigoCelda.necesitaActualizar && d.codigoCelda.archivo1 != "") = false →
      updateStatementFor d
        = some ("UPDATE EDESURFLX_SGD.UTRANSFORMADORA_LT SET "
          ++ ("cod_poligono = " ++ d.codigoPoligono.archivo1)
          ++ " WHERE instalacao = '" ++ matriculaCorregida d.matricula ++ "';"))
    ∧ ((d.codigoPoligono.necesitaActualizar
        && d.codigoPoligono.archivo1 != "") = false →
      (d.codigoCelda.necesitaActualizar && d.codigoCelda.archivo1 != "") = true →
      updateStatementFor d
        = some ("UPDATE EDESURFLX_SGD.UTRANSFORMADORA_LT SET "
          ++ ("cod_celda = " ++ d.codigoCelda.archivo1)
          ++ " WHERE instalacao = '" ++ matriculaCorregida d.matricula ++ "';"))
    ∧ ((d.codigoPoligono.necesitaActualizar
        && d.codigoPoligono.archivo1 != "") = true →
      (d.codigoCelda.necesitaActualizar && d.codigoCelda.archivo1 != "") = true →
      updateStatementFor d
        = some ("UPDATE EDESURFLX_SGD.UTRANSFORMADORA_LT SET "
          ++ ("cod_poligono = " ++ d.codigoPoligono.archivo1
            ++ ", " ++ ("cod_celda = " ++ d.codigoCelda.archivo1))
          ++ " WHERE instalacao = '" ++ matriculaCorregida d.matricula ++ "';"))
    ∧ ((d.codigoPoligono.necesitaActualizar
        && d.codigoPoligono.archivo1 != "") = true →
      (d.codigoCelda.necesitaActualizar && d.codigoCelda.archivo1 != "") = false →
      d.codigoPoligono.archivo1.data.count quoteChar = 0 →
      (matriculaCorregida d.matricula).data.count quoteChar = 0 →
      ((updateStatementFor d).getD "").data.count quoteChar = 2) := by
  refine ⟨c10_helper_qa d, fun hqA hqB => ?_, fun hqA hqB => ?_, fun hqA hqB hv hk => ?_⟩
  · simp [updateStatementFor, updateClauses, hqA, hqB, joinComma]
  · simp [updateStatementFor, updateClauses, hqA, hqB, joinComma]
  · rw [c10_helper_qa d hqA hqB]
    have h1 : ("UPDATE EDESURFLX_SGD.UTRANSFORMADORA_LT SET " : String).data.count
        quoteChar = 0 := by decide
    have h2 : ("cod_poligono = " : String).data.count quoteChar = 0 := by decide
    have h3 : (" WHERE instalacao = '" : String).data.count quoteChar = 1 := by decide
    have h4 : ("';" : String).data.count quoteChar = 1 := by decide
    simp only [Option.getD_some, String.data_append, List.count_append]
    rw [h1, h2, h3, h4, hv, hk]

/-! ## Validation-script generator with chunking

Embeds the FileCompress component variant that guards the Oracle IN-clause
limit (README.md lines 268-432): generateValidationScript flattens the per
file instalacion lists, generates a plain script for at most 1000 entries
and a chunked script plus a temporary-table alternative above 1000.  The
script is modeled at the granularity of its SQL blocks; the literal text of
each block is fixed template material. -/

/-- One (instalacao, circuito) item of the flattened id list. -/
structure InstEntry where
  instalacao : String
  circuito : String
deriving DecidableEq, Repr

/-- The ProcessedFile interface fields the validation generator reads. -/
structure ProcessedFile where
  name : String
  instalaciones : List String
  circuito : String
deriving DecidableEq, Repr

/-- The Oracle IN-clause limit (README.md line 347). -/
def CHUNK_SIZE : Nat := 1000

/-- The chunk-splitting loop of README.md lines 348-353: consecutive slices
of CHUNK_SIZE entries. -/
def buildChunks (l : List InstEntry) : List (List InstEntry) :=
  if _h : l = [] then []
  else l.take CHUNK_SIZE :: buildChunks (l.drop CHUNK_SIZE)
termination_by l.length
decreasing_by
  simp only [List.length_drop]
  have h0 : 0 < l.length := List.length_pos.mpr _h
  have h1 : 0 < CHUNK_SIZE := by decide
  omega

/-- The blocks a validation script is assembled from.  selectIn stands for
one SELECT with a WHERE instalacao IN list over the given entries;
unionAll for the UNION ALL separator line; circuitSummary for the grouped
exists/not-exists summary query whose subquery repeats the full IN list;
circuitSummaryStub for the commented summary placeholder of the chunked
script; createTempTable for CREATE GLOBAL TEMPORARY TABLE TEMP_INSTALACIONES;
insertTemp for one INSERT INTO TEMP_INSTALACIONES VALUES row; leftJoinQuery
for the SELECT over TEMP_INSTALACIONES LEFT JOIN UTRANSFORMADORA_LT; and
dropTempTable for DROP TABLE TEMP_INSTALACIONES. -/
inductive SqlBlock where
  | selectIn (ids : List InstEntry)
  | unionAll
  | circuitSummary (ids : List InstEntry)
  | circuitSummaryStub
  | createTempTable
  | insertTemp (e : InstEntry)
  | leftJoinQuery
  | dropTempTable
deriving DecidableEq, Repr

/-- generateNormalValidationScript (README.md lines 296-343): one IN-list
SELECT over the whole id list followed by the summary query. -/
def generateNormalValidationScript (all : List InstEntry) : List SqlBlock :=
  [.selectIn all, .circuitSummary all]

/-- generateChunkedValidationScript (README.md lines 346-432): one SELECT
per chunk with UNION ALL between consecutive chunks, the commented summary,
then the temporary-table alternative: create, one INSERT per id, the LEFT
JOIN query, and the drop. -/
def generateChunkedValidationScript (all : List InstEntry) : List SqlBlock :=
  List.intersperse SqlBlock.unionAll ((buildChunks all).map SqlBlock.selectIn)
    ++ [.circuitSummaryStub, .createTempTable]
    ++ all.map SqlBlock.insertTemp
    ++ [.leftJoinQuery, .dropTempTable]

/-- The branch of generateValidationScript (README.md lines 280-290) on the
flattened id list. -/
def validationScriptFor (allInstalaciones : List InstEntry) : List SqlBlock :=
  if allInstalaciones.length > 1000 then
    generateChunkedValidationScript allInstalaciones
  else generateNormalValidationScript allInstalaciones

/-- generateValidationScript (README.md lines 268-293): flatten the per-file
id lists, tagging each id with its file circuito, then generate. -/
def generateValidationScript (fileList : List ProcessedFile) : List SqlBlock :=
  validationScriptFor
    (fileList.flatMap (fun f => f.instalaciones.map (fun inst => ⟨inst, f.circuito⟩)))

def isSelectBlock : SqlBlock → Bool
  | .selectIn _ => true
  | _ => false

def isInsertBlock : SqlBlock → Bool
  | .insertTemp _ => true
  | _ => false

/-! ### Chunking lemmas -/

theorem buildChunks_nil : buildChunks [] = [] := by
  rw [buildChunks]
  simp

theorem buildChunks_cons (l : List InstEntry) (h : l ≠ []) :
    buildChunks l = l.take CHUNK_SIZE :: buildChunks (l.drop CHUNK_SIZE) := by
  rw [buildChunks]
  exact dif_neg h

theorem buildChunks_flatten (l : List InstEntry) :
    (buildChunks l).flatten = l := by
  by_cases h : l = []
  · subst h
    rw [buildChunks_nil]
    rfl
  · rw [buildChunks_cons l h]
    have ih := buildChunks_flatten (l.drop CHUNK_SIZE)
    rw [List.flatten_cons, ih, List.take_append_drop]
termination_by l.length
decreasing_by
  simp only [List.length_drop]
  have h0 : 0 < l.length := List.length_pos.mpr h
  have h1 : 0 < CHUNK_SIZE := by decide
  omega

theorem buildChunks_sizes (l : List InstEntry) :
    ∀ c ∈ buildChunks l, 0 < c.length ∧ c.length ≤ CHUNK_SIZE := by
  intro c hc
  by_cases h : l = []
  · subst h
    rw [buildChunks_nil] at hc
    simp at hc
  · rw [buildChunks_cons l h] at hc
    rcases List.mem_cons.mp hc with hc | hc
    · subst hc
      constructor
      · rw [List.length_take]
        have h0 : 0 < l.length := List.length_pos.mpr h
        have h1 : 0 < CHUNK_SIZE := by decide
        simp only [lt_min_iff]
        exact ⟨h1, h0⟩
      · rw [List.length_take]
        exact min_le_left _ _
    · exact buildChunks_sizes (l.drop CHUNK_SIZE) c hc
termination_by l.length
decreasing_by
  simp only [List.length_drop]
  have h0 : 0 < l.length := List.length_pos.mpr h
  have h1 : 0 < CHUNK_SIZE := by decide
  omega

theorem buildChunks_1001 (l : List InstEntry) (h : l.length = 1001) :
    (buildChunks l).map List.length = [1000, 1] := by
  have h1 : l ≠ [] := by
    intro hn
    rw [hn] at h
    simp at h
  have hd : (l.drop CHUNK_SIZE).length = 1 := by
    simp only [List.length_drop, h]
    rfl
  have h2 : l.drop CHUNK_SIZE ≠ [] := by
    intro hn
    rw [hn] at hd
    simp at hd
  have hd2 : (l.drop CHUNK_SIZE).drop CHUNK_SIZE = [] := by
    apply List.drop_eq_nil_of_le
    rw [hd]
    decide
  rw [buildChunks_cons l h1, buildChunks_cons _ h2, hd2, buildChunks_nil]
  simp only [List.map_cons, List.map_nil, List.length_take, hd, h]
  rfl

theorem intersperse_countP_of_sep_false (p : SqlBlock → Bool)
    (hp : p SqlBlock.unionAll = false) (l : List SqlBlock) :
    (List.intersperse SqlBlock.unionAll l).countP p = l.countP p := by
  match l with
  | [] => rfl
  | [a] => rfl
  | a :: b :: t =>
    have ih := intersperse_countP_of_sep_false p hp (b :: t)
    simp only [List.intersperse_cons₂, List.countP_cons, ih, hp]
    simp

theorem intersperse_count_sep (l : List SqlBlock)
    (hl : ∀ b ∈ l, b ≠ SqlBlock.unionAll) :
    (List.intersperse SqlBlock.unionAll l).count SqlBlock.unionAll
      = l.length - 1 := by
  match l with
  | [] => rfl
  | [a] =>
    have ha : a ≠ SqlBlock.unionAll := hl a (List.mem_singleton_self a)
    have hb : (a == SqlBlock.unionAll) = false := by
      simpa using ha
    simp [List.intersperse_single, List.count_cons, hb]
  | a :: b :: t =>
    have ih := intersperse_count_sep (b :: t) (fun x hx => hl x (List.mem_cons_of_mem a hx))
    have ha : a ≠ SqlBlock.unionAll := hl a (List.mem_cons_self a (b :: t))
    simp only [List.intersperse_cons₂, List.count_cons, ih]
    simp only [List.length_cons]
    have hb : (a == SqlBlock.unionAll) = false := by
      simpa using ha
    simp [hb]

theorem validationScriptFor_of_le (all : List InstEntry) (h : all.length ≤ 1000) :
    validationScriptFor all = [SqlBlock.selectIn all, SqlBlock.circuitSummary all] := by
  unfold validationScriptFor
  rw [if_neg (by omega)]
  rfl

theorem validationScriptFor_of_gt (all : List InstEntry) (h : all.length > 1000) :
    validationScriptFor all = generateChunkedValidationScript all := by
  unfold validationScriptFor
  rw [if_pos h]

theorem countP_select_map_selectIn (chunks : List (List InstEntry)) :
    (chunks.map SqlBlock.selectIn).countP isSelectBlock = chunks.length := by
  rw [List.countP_map]
  have he : (isSelectBlock ∘ SqlBlock.selectIn) = fun _ => true := rfl
  rw [he, List.countP_true]

theorem countP_select_map_insertTemp (all : List InstEntry) :
    (all.map SqlBlock.insertTemp).countP isSelectBlock = 0 := by
  rw [List.countP_map]
  have he : (isSelectBlock ∘ SqlBlock.insertTemp) = fun _ => false := rfl
  rw [he, List.countP_false]
  rfl

theorem countP_insert_map_insertTemp (all : List InstEntry) :
    (all.map SqlBlock.insertTemp).countP isInsertBlock = all.length := by
  rw [List.countP_map]
  have he : (isInsertBlock ∘ SqlBlock.insertTemp) = fun _ => true := rfl
  rw [he, List.countP_true]

theorem countP_insert_map_selectIn (chunks : List (List InstEntry)) :
    (chunks.map SqlBlock.selectIn).countP isInsertBlock = 0 := by
  rw [List.countP_map]
  have he : (isInsertBlock ∘ SqlBlock.selectIn) = fun _ => false := rfl
  rw [he, List.countP_false]
  rfl

theorem chunked_countP_select (all : List InstEntry) :
    (generateChunkedValidationScript all).countP isSelectBlock
      = (buildChunks all).length := by
  unfold generateChunkedValidationScript
  rw [List.countP_append, List.countP_append, List.countP_append,
    intersperse_countP_of_sep_false isSelectBlock rfl,
    countP_select_map_selectIn, countP_select_map_insertTemp]
  rfl

theorem chunked_countP_insert (all : List InstEntry) :
    (generateChunkedValidationScript all).countP isInsertBlock = all.length := by
  unfold generateChunkedValidationScript
  rw [List.countP_append, List.countP_append, List.countP_append,
    intersperse_countP_of_sep_false isInsertBlock rfl,
    countP_insert_map_selectIn, countP_insert_map_insertTemp]
  have h1 : List.countP isInsertBlock
      [SqlBlock.circuitSummaryStub, SqlBlock.createTempTable] = 0 := rfl
  have h2 : List.countP isInsertBlock
      [SqlBlock.leftJoinQuery, SqlBlock.dropTempTable] = 0 := rfl
  rw [h1, h2]
  omega

theorem count_unionAll_map_insertTemp (all : List InstEntry) :
    (all.map SqlBlock.insertTemp).count SqlBlock.unionAll = 0 := by
  rw [List.count_eq_zero]
  intro hmem
  rcases List.mem_map.mp hmem with ⟨x, _, hx⟩
  exact SqlBlock.noConfusion hx

theorem chunked_count_unionAll (all : List InstEntry) :
    (generateChunkedValidationScript all).count SqlBlock.unionAll
      = (buildChunks all).length - 1 := by
  unfold generateChunkedValidationScript
  rw [List.count_append, List.count_append, List.count_append,
    intersperse_count_sep _ (by
      intro b hb
      rcases List.mem_map.mp hb with ⟨x, _, hx⟩
      rw [← hx]
      exact fun hc => SqlBlock.noConfusion hc),
    count_unionAll_map_insertTemp, List.length_map]
  rfl

/-! ## Claim C5: validation-script chunk boundary -/

/-- C5: a flat id list of at most 1000 entries (in particular exactly 1000)
produces a single IN-list SELECT plus the summary, with no UNION ALL, no
chunking and no temp table; a list of more than 1000 entries is split into
consecutive chunks of at most 1000 whose concatenation is the whole list,
one SELECT per chunk with one UNION ALL between consecutive SELECTs, and the
temp-table alternative (create, one INSERT per id, LEFT JOIN query, drop) is
additionally emitted; a 1001-entry list yields exactly 2 chunks of sizes
1000 and 1. -/
theorem c5_chunking (all : List InstEntry) :
    (all.length ≤ 1000 →
      validationScriptFor all
        = [SqlBlock.selectIn all, SqlBlock.circuitSummary all])
    ∧ (all.length > 1000 →
      (buildChunks all).flatten = all
      ∧ (∀ c ∈ buildChunks all, 0 < c.length ∧ c.length ≤ 1000)
      ∧ (validationScriptFor all).countP isSelectBlock = (buildChunks all).length
      ∧ (validationScriptFor all).count SqlBlock.unionAll
          = (buildChunks all).length - 1
      ∧ SqlBlock.createTempTable ∈ validationScriptFor all
      ∧ (validationScriptFor all).countP isInsertBlock = all.length
      ∧ SqlBlock.leftJoinQuery ∈ validationScriptFor all
      ∧ SqlBlock.dropTempTable ∈ validationScriptFor all)
    ∧ (all.length = 1001 →
      (buildChunks all).map List.length = [1000, 1]
      ∧ (buildChunks all).length = 2
      ∧ (validationScriptFor all).count SqlBlock.unionAll = 1) := by
  refine ⟨validationScriptFor_of_le all, fun h => ?_, fun h => ?_⟩
  · rw [validationScriptFor_of_gt all h]
    refine ⟨buildChunks_flatten all, buildChunks_sizes all,
      chunked_countP_select all, chunked_count_unionAll all, ?_,
      chunked_countP_insert all, ?_, ?_⟩
    · unfold generateChunkedValidationScript
      simp
    · unfold generateChunkedValidationScript
      simp
    · unfold generateChunkedValidationScript
      simp
  · have hlen : (buildChunks all).length = 2 := by
      have := congrArg List.length (buildChunks_1001 all h)
      simpa using this
    refine ⟨buildChunks_1001 all h, hlen, ?_⟩
    rw [validationScriptFor_of_gt all (by omega), chunked_count_unionAll all, hlen]

theorem c5_chunking_witness :
    validationScriptFor [⟨"031517", "LPRA110"⟩]
      = [SqlBlock.selectIn [⟨"031517", "LPRA110"⟩],
         SqlBlock.circuitSummary [⟨"031517", "LPRA110"⟩]] :=
  (c5_chunking [⟨"031517", "LPRA110"⟩]).1 (by decide)

theorem c10_quoting_witness :
    updateStatementFor
        ⟨"031517", ⟨"ABC", "X", true⟩, ⟨"5", "5", false⟩, .actualizar_poligono⟩
      = some "UPDATE EDESURFLX_SGD.UTRANSFORMADORA_LT SET cod_poligono = ABC WHERE instalacao = '031517';"
    ∧ ((updateStatementFor
        ⟨"031517", ⟨"ABC", "X", true⟩, ⟨"5", "5", false⟩,
          .actualizar_poligono⟩).getD "").data.count quoteChar = 2 :=
  ⟨((c10_quoting ⟨"031517", ⟨"ABC", "X", true⟩, ⟨"5", "5", false⟩,
      .actualizar_poligono⟩).1 (by decide) (by decide)).trans (by decide),
   (c10_quoting ⟨"031517", ⟨"ABC", "X", true⟩, ⟨"5", "5", false⟩,
      .actualizar_poligono⟩).2.2.2 (by decide) (by decide) (by decide) (by decide)⟩

/-! ## Manual sheet re-selection (reprocessFileWithSheet, page.tsx:1135-1165) -/

/-- The sheet-name to decoded-rows view of a workbook (what sheet_to_json
yields per sheet, restricted to the compared columns). -/
abbrev Workbook := List (String × List Row)

/-- The rows of the named sheet (empty when the name is absent). -/
def sheetRows (wb : Workbook) (name : String) : List Row :=
  ((wb.find? (fun p => p.1 == name)).map (fun p => p.2)).getD []

/-- reprocessFileWithSheet (page.tsx:1135-1165): the updated file is built by
spreading the current file object and overwriting only hojaProcesada (the
body comment in the source reads: simulate the reprocessing with the new
sheet).  The Select onValueChange handler at page.tsx:2008-2014 performs the
same spread.  The row data decoded from the originally selected sheet is
left untouched. -/
def reprocessFileWithSheet (currentFile : FileData) (sheetName : String) : FileData :=
  { currentFile with hojaProcesada := sheetName }

/-! ## Claim C7: sheet re-selection -/

/-- Fixture: a two-sheet workbook whose sheets hold different rows. -/
def exWorkbook : Workbook :=
  [("Hoja1", [⟨"111111", "1", "2"⟩]), ("LPRA110", [⟨"222222", "3", "4"⟩])]

/-- Fixture: the file state after decoding sheet Hoja1 of exWorkbook. -/
def exLoadedFile : FileData :=
  { name := "archivo.xlsx"
    records := 1
    data := sheetRows exWorkbook "Hoja1"
    hojaProcesada := "Hoja1"
    hojasDisponibles := ["Hoja1", "LPRA110"] }

/-- C7 counterexample: manually selecting the other sheet of a loaded
two-sheet workbook relabels hojaProcesada but keeps the rows decoded from
the originally selected sheet, which differ from the chosen sheet's rows;
the dataset is not rebuilt from the chosen sheet as the claim states. -/
theorem c7_reprocess_counterexample :
    (reprocessFileWithSheet exLoadedFile "LPRA110").hojaProcesada = "LPRA110"
    ∧ (reprocessFileWithSheet exLoadedFile "LPRA110").data
        = sheetRows exWorkbook "Hoja1"
    ∧ (reprocessFileWithSheet exLoadedFile "LPRA110").data
        ≠ sheetRows exWorkbook "LPRA110" := by
  refine ⟨rfl, rfl, by decide⟩

/-- C7 (amended): a manual sheet re-selection produces a new FileData value
(a shallow copy) whose hojaProcesada is the chosen sheet name, while the
decoded rows, the record count and the available-sheet list stay exactly
those of the previously processed sheet; no dataset rebuild takes place. -/
theorem c7_reprocess_relabels (currentFile : FileData) (sheetName : String) :
    (reprocessFileWithSheet currentFile sheetName).hojaProcesada = sheetName
    ∧ (reprocessFileWithSheet currentFile sheetName).data = currentFile.data
    ∧ (reprocessFileWithSheet currentFile sheetName).records = currentFile.records
    ∧ (reprocessFileWithSheet currentFile sheetName).hojasDisponibles
        = currentFile.hojasDisponibles :=
  ⟨rfl, rfl, rfl, rfl⟩

/-! ## Query-script generation (generateQueryScript, page.tsx:1439-1578) -/

/-- The matricula extraction of page.tsx:1456-1493: map each row to its
normalized id (null when the raw lookup is falsy), then keep only truthy,
non-empty results. -/
def extractMatriculas (data : List Row) : List String :=
  (data.filterMap (fun row =>
    if row.matricula == "" then none
    else some (normalizeMatricula row.matricula))).filter (fun m => m != "")

/-- The core SELECT of the generated consultation script (page.tsx:1538-1544);
the surrounding comment banner lines are fixed template text. -/
def renderQueryScript (matriculas : List String) : String :=
  "SELECT instalacao, cod_poligono, cod_celda FROM EDESURFLX_SGD.UTRANSFORMADORA_LT WHERE instalacao IN ("
    ++ joinComma (matriculas.map (fun m => "'" ++ m ++ "'"))
    ++ ") ORDER BY instalacao;"

/-- The two pieces of component state generateQueryScript may write. -/
structure QueryScriptState where
  queryScript : String
  isQueryScript : Bool
deriving DecidableEq, Repr

inductive ToastKind where
  | info
  | destructive
deriving DecidableEq, Repr

/-- generateQueryScript (page.tsx:1439-1578) as a state transition: with no
file loaded, or with zero extracted matriculas, it shows a destructive toast
and returns before any setQueryScript call, leaving the state unchanged;
otherwise it stores the rendered script and sets the flag. -/
def generateQueryScript (file1 : Option FileData) (st : QueryScriptState) :
    QueryScriptState × ToastKind :=
  match file1 with
  | none => (st, .destructive)
  | some f =>
    let matriculas := extractMatriculas f.data
    if matriculas.length = 0 then (st, .destructive)
    else ({ queryScript := renderQueryScript matriculas, isQueryScript := true },
      .info)

/-! ## Claim C8: empty key set -/

/-- C8 (amended): the spreadsheet-path query-script generator does fail with
an operator-facing error and leaves the previously displayed script state
unchanged when zero identifiers are extracted (and when no file is loaded);
however the SQL-text-path validation generator does not guard the empty id
list: processing files from which zero identifiers were extracted still
emits a script, with an empty IN list (see the counterexample). -/
theorem c8_empty_keyset (f : FileData) (st : QueryScriptState)
    (h : extractMatriculas f.data = []) :
    generateQueryScript (some f) st = (st, ToastKind.destructive)
    ∧ generateQueryScript none st = (st, ToastKind.destructive) := by
  constructor
  · unfold generateQueryScript
    simp [h]
  · rfl

theorem c8_empty_keyset_witness :
    generateQueryScript (some (mkFile [⟨" ", "X", "Y"⟩])) ⟨"previous", true⟩
      = (⟨"previous", true⟩, ToastKind.destructive)
    ∧ generateQueryScript none ⟨"previous", true⟩
      = (⟨"previous", true⟩, ToastKind.destructive) :=
  c8_empty_keyset (mkFile [⟨" ", "X", "Y"⟩]) ⟨"previous", true⟩ (by decide)

/-- C8 counterexample: the validation generator of the FileCompress path,
given one processed file containing zero extractable identifiers, emits a
script (the normal shape over the empty id list, an empty IN list) instead
of failing with an error and producing no script. -/
theorem c8_zero_ids_counterexample :
    generateValidationScript [⟨"consulta.sql", [], "LPRA110"⟩]
      = [SqlBlock.selectIn [], SqlBlock.circuitSummary []]
    ∧ generateValidationScript [⟨"consulta.sql", [], "LPRA110"⟩] ≠ [] := by
  refine ⟨by decide, by decide⟩

end DataMatch
